import Mathlib

/-!
Shallow embedding of the heuristic field-mapping and normalization pipeline of
`server.js` (Construction Inventory Extractor), together with theorems settling
the specification claims about it.

JavaScript semantics are modelled explicitly:
* strings are Lean `String`s; JS truthiness of a string value is `s ≠ ""`;
* `String.prototype.includes` becomes `List.isInfixOf` on character lists;
* the sparse Azure cell grid is a `List Cell`; the JS object map keyed by
  the string `rowIndex-columnIndex` is a last-write-wins coordinate lookup;
* machine numbers are `Nat` (every quantity involved is a non-negative
  integer); `Math.round` of a non-negative quotient `t / n` is
  `(2 * t + n) / (2 * n)` in integer arithmetic.
-/

namespace InventoryExtractor

/-- JS `s.includes(sub)`: `sub` occurs as a contiguous substring of `s`. -/
def jsIncludes (s sub : String) : Bool :=
  s.toList.tails.any fun t => sub.toList.isPrefixOf t

/-- JS `s.toLowerCase()`, character by character.  (Defined by structural
recursion over the character list so that it evaluates inside the kernel;
`String.toLower` itself is defined through a byte-position loop.) -/
def jsToLower (s : String) : String :=
  (s.toList.map Char.toLower).asString

/-- JS `s.trim()`: strip leading and trailing whitespace.  (Same remark as for
`jsToLower`; `Char.isWhitespace` covers the whitespace the inputs contain.) -/
def jsTrim (s : String) : String :=
  (((s.toList.dropWhile Char.isWhitespace).reverse.dropWhile Char.isWhitespace).reverse).asString

/-- The nine target semantic fields of `detectFieldMappings`
(`server.js:53-78`), in the declaration order of the `fieldPatterns`
object literal. -/
inductive TargetField
  | itemName
  | purchaseDate
  | condition
  | brand
  | model
  | serialNumber
  | specifications
  | supplier
  | quantity

deriving instance DecidableEq, Repr for TargetField

/-- The candidate substring patterns per field (`server.js:53-78`),
copied verbatim from the source. -/
def fieldPatterns : TargetField → List String
  | .itemName => ["nombre", "item", "descripcion", "description", "herramienta", "tool",
      "equipment", "producto", "product", "material", "articulo", "name"]
  | .purchaseDate => ["fecha", "date", "compra", "purchase", "año", "year", "adquisicion",
      "fechacompra", "purchasedate", "bought", "acquired"]
  | .condition => ["condicion", "condition", "estado", "state", "status", "situacion"]
  | .brand => ["marca", "brand", "fabricante", "manufacturer"]
  | .model => ["modelo", "model", "tipo", "type"]
  | .serialNumber => ["serie", "serial", "numero", "nserie", "serialnumber"]
  | .specifications => ["caracteristicas", "specs", "specifications", "features", "detalles"]
  | .supplier => ["proveedor", "supplier", "vendor"]
  | .quantity => ["cant", "cantidad", "qty", "quantity", "unidades", "units"]

/-- Header normalization (`server.js:48-50`): lowercase, then delete every
character outside `[a-z0-9]`.  (The trailing `replace(/\s+/g, '')` in the
source is a no-op, because whitespace was already deleted by the first
replace.) -/
def normalizeHeader (h : String) : String :=
  ((jsToLower h).toList.filter fun c =>
    decide (('a' ≤ c ∧ c ≤ 'z') ∨ ('0' ≤ c ∧ c ≤ '9'))).asString

/-- The bidirectional substring test of `server.js:82-84`:
`header.includes(pattern) || pattern.includes(header)` over the pattern
list of one field. -/
def headerMatches (patterns : List String) (header : String) : Bool :=
  patterns.any fun pat => jsIncludes header pat || jsIncludes pat header

/-- Column assignment for one field (`server.js:80-90`).  The source guards the
write with `if (!mappings[field])`; the number `0` is falsy in JS, so an
assignment to column 0 does not protect the entry, and the next matching
column overwrites it. -/
def assignField (patterns : List String) (normHeaders : List String) : Option Nat :=
  normHeaders.enum.foldl
    (fun acc p =>
      if headerMatches patterns p.2 then
        match acc with
        | none => some p.1
        | some 0 => some p.1
        | some j => some j
      else acc)
    none

/-- `detectFieldMappings` (`server.js:46-93`), viewed as the per-field column
choice.  The fields do not interact: each field scans all normalized headers
on its own, so the mapping object is a function from field to optional
column index. -/
def detectFieldMappings (headers : List String) : TargetField → Option Nat :=
  fun f => assignField (fieldPatterns f) (headers.map normalizeHeader)

/-- The category keyword table of `categorizeItem` (`server.js:99-124`),
copied verbatim, in declaration order. -/
def categoryKeywordTable : List (String × List String) :=
  [("Power Tools", ["taladro", "martillo", "radial", "amoladora", "batidora", "sierra",
      "drill", "hammer", "grinder", "mixer", "saw", "cutter"]),
   ("Safety Equipment", ["arnes", "casco", "safety", "protective", "proteccion", "señal",
      "helmet", "harness", "signal", "warning", "guard"]),
   ("Hand Tools", ["llave", "destornillador", "pala", "martillo", "cincel",
      "wrench", "screwdriver", "shovel", "chisel", "pliers"]),
   ("Measuring Tools", ["metro", "nivel", "regla", "medidor",
      "measure", "level", "ruler", "gauge"]),
   ("Power Equipment", ["grupo", "generador", "compresor", "motor",
      "generator", "compressor", "engine", "power"]),
   ("Construction Materials", ["cable", "tubo", "material", "alambre",
      "pipe", "wire", "beam", "rod"])]

/-- `categorizeItem` (`server.js:96-133`): the first category, in declaration
order, one of whose keywords is a substring of the lowercased name;
`"General Equipment"` when none matches.  A missing name is coerced to `""`
(`(itemName || '')`), which matches no keyword. -/
def categorizeItem (itemName : Option String) : String :=
  let name := jsToLower (itemName.getD "")
  match categoryKeywordTable.find? (fun c => c.2.any fun kw => jsIncludes name kw) with
  | some c => c.1
  | none => "General Equipment"

/-- Take exactly `n` leading decimal digits, returning them and the rest.
Fails when fewer than `n` digits are available at this position; this is how
a greedy `\d{k}` component behaves once `k` is fixed. -/
def takeDigits (n : Nat) (s : List Char) : Option (List Char × List Char) :=
  let pre := s.take n
  if pre.length = n ∧ pre.all Char.isDigit then some (pre, s.drop n) else none

/-- One attempt of `(\d{1,2})sep(\d{1,2})sep(\d{4})` anchored at the current
position, with the two variable group lengths fixed to `l1` and `l2`. -/
def tryMDY (sep : Char) (s : List Char) (l1 l2 : Nat) :
    Option (String × String × String) :=
  match takeDigits l1 s with
  | none => none
  | some (g1, r1) =>
    match r1 with
    | [] => none
    | c1 :: r2 =>
      if c1 = sep then
        match takeDigits l2 r2 with
        | none => none
        | some (g2, r3) =>
          match r3 with
          | [] => none
          | c2 :: r4 =>
            if c2 = sep then
              match takeDigits 4 r4 with
              | none => none
              | some (g3, _) => some (g1.asString, g2.asString, g3.asString)
            else none
      else none

/-- `(\d{1,2})sep(\d{1,2})sep(\d{4})` anchored at the current position, with
the regex backtracking order for the greedy `\d{1,2}` groups:
lengths (2,2), (2,1), (1,2), (1,1). -/
def matchMDYAt (sep : Char) (s : List Char) : Option (String × String × String) :=
  match tryMDY sep s 2 2 with
  | some r => some r
  | none =>
    match tryMDY sep s 2 1 with
    | some r => some r
    | none =>
      match tryMDY sep s 1 2 with
      | some r => some r
      | none => tryMDY sep s 1 1

/-- One attempt of `(\d{4})sep(\d{1,2})sep(\d{1,2})` anchored at the current
position, with the two variable group lengths fixed to `l2` and `l3`. -/
def tryYMD (sep : Char) (s : List Char) (l2 l3 : Nat) :
    Option (String × String × String) :=
  match takeDigits 4 s with
  | none => none
  | some (g1, r1) =>
    match r1 with
    | [] => none
    | c1 :: r2 =>
      if c1 = sep then
        match takeDigits l2 r2 with
        | none => none
        | some (g2, r3) =>
          match r3 with
          | [] => none
          | c2 :: r4 =>
            if c2 = sep then
              match takeDigits l3 r4 with
              | none => none
              | some (g3, _) => some (g1.asString, g2.asString, g3.asString)
            else none
      else none

/-- `(\d{4})sep(\d{1,2})sep(\d{1,2})` anchored at the current position, with
the regex backtracking order for the greedy `\d{1,2}` groups. -/
def matchYMDAt (sep : Char) (s : List Char) : Option (String × String × String) :=
  match tryYMD sep s 2 2 with
  | some r => some r
  | none =>
    match tryYMD sep s 2 1 with
    | some r => some r
    | none =>
      match tryYMD sep s 1 2 with
      | some r => some r
      | none => tryYMD sep s 1 1

/-- Leftmost regex search: run the anchored matcher at every suffix, leftmost
position first, as JS `String.prototype.match` does for an unanchored
pattern. -/
def firstSome {α : Type} (f : List Char → Option α) : List Char → Option α
  | [] => f []
  | c :: rest =>
    match f (c :: rest) with
    | some r => some r
    | none => firstSome f rest

/-- Numeric value of a digit string, as JS `parseInt` on an all-digit match. -/
def digitsToNat (l : List Char) : Nat :=
  l.foldl (fun a c => a * 10 + (c.toNat - '0'.toNat)) 0

/-- JS `padStart(2, '0')`. -/
def padTwo (s : String) : String :=
  (List.replicate (2 - s.length) '0').asString ++ s

/-- `formatPurchaseDate` (`server.js:136-170`).  The five unanchored patterns
are tried in source order: `MM/DD/YYYY`, `MM-DD-YYYY`, `YYYY-MM-DD`,
`YYYY/MM/DD`, bare 4-digit year.  The US-style patterns are reformatted with
zero padding; the ISO-like patterns return the whole trimmed input unchanged;
the bare year is accepted only in `(1900, currentYear + 5]`, with no further
pattern tried on rejection (it is the last pattern, so the loop just ends and
the function returns `null`).  `currentYear` stands for
`new Date().getFullYear()`.  A `none` input models a JS falsy non-string
argument; `""` is the falsy string, so both return `null` at the top guard. -/
def formatPurchaseDate (currentYear : Nat) (dateValue : Option String) : Option String :=
  match dateValue with
  | none => none
  | some v =>
    if v = "" then none
    else
      let dateStr := jsTrim v
      let cs := dateStr.toList
      match firstSome (matchMDYAt '/') cs with
      | some (m, d, y) => some (y ++ "-" ++ padTwo m ++ "-" ++ padTwo d)
      | none =>
        match firstSome (matchMDYAt '-') cs with
        | some (m, d, y) => some (y ++ "-" ++ padTwo m ++ "-" ++ padTwo d)
        | none =>
          match firstSome (matchYMDAt '-') cs with
          | some _ => some dateStr
          | none =>
            match firstSome (matchYMDAt '/') cs with
            | some _ => some dateStr
            | none =>
              match firstSome (fun s => (takeDigits 4 s).map fun p => p.1) cs with
              | some ds =>
                let year := digitsToNat ds
                if year > 1900 ∧ year ≤ currentYear + 5 then
                  some (toString year ++ "-01-01")
                else none
              | none => none

/-- `getFieldValue` (`server.js:189-191`): `""` for an unmapped field, else the
trimmed cell text, with an out-of-range or missing cell coerced to `""`
(`row[index] || ''`). -/
def getFieldValue (row : List String) (index : Option Nat) : String :=
  match index with
  | none => ""
  | some i => jsTrim (row.getD i "")

/-- The JS property-name string of each target field, used by
`buildDescription` as the label fallback (`headers[mappings[field]] || field`). -/
def fieldLabel : TargetField → String
  | .itemName => "itemName"
  | .purchaseDate => "purchaseDate"
  | .condition => "condition"
  | .brand => "brand"
  | .model => "model"
  | .serialNumber => "serialNumber"
  | .specifications => "specifications"
  | .supplier => "supplier"
  | .quantity => "quantity"

/-- The secondary fields contributing to the description, in the order of
`server.js:176`. -/
def descriptionFields : List TargetField :=
  [.brand, .model, .serialNumber, .specifications, .supplier, .quantity]

/-- `buildDescription` (`server.js:173-187`): for each secondary field with a
non-empty value, append `"<header text or field name>: <value>"`; join with
`" | "`; fall back to the fixed literal when the join is empty. -/
def buildDescription (row : List String) (m : TargetField → Option Nat)
    (headers : List String) : String :=
  let parts := descriptionFields.filterMap fun f =>
    let value := getFieldValue row (m f)
    if value ≠ "" ∧ jsTrim value ≠ "" then
      let hname :=
        match m f with
        | some i => headers.getD i ""
        | none => ""
      let fieldName := if hname ≠ "" then hname else fieldLabel f
      some (fieldName ++ ": " ++ value)
    else none
  let joined := String.intercalate " | " parts
  if joined = "" then "No additional details available" else joined

/-- `calculateItemConfidence` (`server.js:657-665`): fixed weights added when
the mapped field's value for the row is non-empty, then clamped at 100. -/
def calculateItemConfidence (row : List String) (m : TargetField → Option Nat) : Nat :=
  let s0 : Nat := 0
  let s1 := if getFieldValue row (m .itemName) ≠ "" then s0 + 50 else s0
  let s2 := if getFieldValue row (m .brand) ≠ "" then s1 + 15 else s1
  let s3 := if getFieldValue row (m .model) ≠ "" then s2 + 15 else s2
  let s4 := if getFieldValue row (m .purchaseDate) ≠ "" then s3 + 10 else s3
  let s5 := if getFieldValue row (m .specifications) ≠ "" then s4 + 10 else s4
  min s5 100

/-- A row-level validation issue (`server.js:667-677`). -/
structure ValidationIssue where
  field : String
  message : String
  severity : String

deriving instance DecidableEq, Repr for ValidationIssue

/-- `validateItem` (`server.js:667-677`): one error when the item-name value
is empty, nothing else. -/
def validateItem (row : List String) (m : TargetField → Option Nat) : List ValidationIssue :=
  if getFieldValue row (m .itemName) = "" then
    [⟨"itemName", "Item name is required", "error"⟩]
  else []

/-- One sparse cell of an Azure analysis table (`table.cells` entries). -/
structure Cell where
  rowIndex : Nat
  columnIndex : Nat
  content : String

deriving instance DecidableEq, Repr for Cell

/-- The `cellMap` lookup of `server.js:632-635`: the JS object is keyed by the
string `` `${rowIndex}-${columnIndex}` `` (injective on pairs of naturals), a
later cell with the same coordinates overwrites an earlier one, and a missing
key reads as `""` (`cellMap[...] || ''` at both write and read). -/
def cellLookup (cells : List Cell) (r c : Nat) : String :=
  match cells.reverse.find? (fun cell => cell.rowIndex == r && cell.columnIndex == c) with
  | some cell => cell.content
  | none => ""

/-- `Math.max(...cells.map(c => c.rowIndex))` for a non-empty list; the empty
case is handled separately in `processAzureTable`. -/
def maxRowOf (cells : List Cell) : Nat :=
  cells.foldl (fun a cell => max a cell.rowIndex) 0

/-- `Math.max(...cells.map(c => c.columnIndex))` for a non-empty list. -/
def maxColOf (cells : List Cell) : Nat :=
  cells.foldl (fun a cell => max a cell.columnIndex) 0

/-- Dense headers-plus-rows table. -/
structure RawTable where
  headers : List String
  rows : List (List String)

deriving instance DecidableEq, Repr for RawTable

/-- `processAzureTable` (`server.js:631-655`).  For an empty cell list the JS
`Math.max(...[])` is `-Infinity`, so both `for` loops run zero times and the
function returns `{headers: [], rows: []}` without any error; this is the
`isEmpty` branch.  Otherwise headers come from row 0 over columns
`0..maxCol`, and data rows from rows `1..maxRow`, every gap read as `""`. -/
def processAzureTable (cells : List Cell) : RawTable :=
  if cells.isEmpty then ⟨[], []⟩
  else
    let maxRow := maxRowOf cells
    let maxCol := maxColOf cells
    let headers := (List.range (maxCol + 1)).map fun col => cellLookup cells 0 col
    let rows := (List.range' 1 maxRow).map fun r =>
      (List.range (maxCol + 1)).map fun col => cellLookup cells r col
    ⟨headers, rows⟩

/-- One extracted inventory record (`server.js:585-596`). -/
structure InventoryItem where
  id : String
  project : String
  itemName : String
  category : String
  condition : String
  purchaseDate : Option String
  description : String
  confidence : Nat
  validationIssues : List ValidationIssue
  source : String

deriving instance DecidableEq, Repr for InventoryItem

/-- Construction of one item from a non-blank row (`server.js:580-596`).
`index` is the 0-based index of the row within the normalized data rows. -/
def makeItem (projectName : String) (currentYear : Nat) (headers : List String)
    (m : TargetField → Option Nat) (row : List String) (index : Nat) : InventoryItem :=
  let itemNameRaw := getFieldValue row (m .itemName)
  let itemName := if itemNameRaw = "" then "Item " ++ toString (index + 1) else itemNameRaw
  { id := "azure_" ++ toString index
    project := projectName
    itemName := jsTrim itemName
    category := categorizeItem (some itemName)
    condition :=
      (fun v => if v = "" then "Good" else v) (getFieldValue row (m .condition))
    purchaseDate := formatPurchaseDate currentYear (some (getFieldValue row (m .purchaseDate)))
    description := buildDescription row m headers
    confidence := calculateItemConfidence row m
    validationIssues := validateItem row m
    source := "azure_ai" }

/-- The per-row loop of the extraction handler (`server.js:574-600`): when the
first table has at least one header and one data row, every row with some
non-blank cell yields an item (rows of only blank cells are skipped);
otherwise no items are produced. -/
def processTableRows (projectName : String) (currentYear : Nat) (t : RawTable) :
    List InventoryItem :=
  if 0 < t.headers.length ∧ 0 < t.rows.length then
    let m := detectFieldMappings t.headers
    t.rows.enum.filterMap fun p =>
      if p.2.any (fun cell => decide (jsTrim cell ≠ "")) then
        some (makeItem projectName currentYear t.headers m p.2 p.1)
      else none
  else []

/-- `Math.round(total / n)` for naturals with `n > 0`: the quotient is
non-negative, so JS rounding (half up) is `⌊total / n + 1 / 2⌋`. -/
def jsRound (total n : Nat) : Nat :=
  (2 * total + n) / (2 * n)

/-- Aggregate result of one extraction request (`server.js:606-618`). -/
structure ExtractionResult where
  extractedItems : List InventoryItem
  totalItems : Nat
  tablesDetected : Nat
  confidenceScore : Nat
  fieldMappingSuccess : Bool

deriving instance DecidableEq, Repr for ExtractionResult

/-- The summary assembly of `server.js:604-618`: total count, integer-rounded
mean confidence over produced items (0 when there are none), and
`fieldMappingSuccess` exactly when an item was produced. -/
def summarizeItems (tablesDetected : Nat) (items : List InventoryItem) : ExtractionResult :=
  let totalConfidence := (items.map fun i => i.confidence).sum
  { extractedItems := items
    totalItems := items.length
    tablesDetected := tablesDetected
    confidenceScore :=
      if 0 < items.length then jsRound totalConfidence items.length else 0
    fieldMappingSuccess := decide (0 < items.length) }

/-- The extraction pipeline of the `/extract-inventory` handler
(`server.js:564-618`) from the point where the analysis result's tables are
known: only the first table is processed; its sparse cells are normalized,
fields are mapped, rows become items, and the summary is assembled. -/
def extractInventory (projectName : String) (currentYear : Nat)
    (tables : List (List Cell)) : ExtractionResult :=
  summarizeItems tables.length
    (match tables with
     | [] => []
     | mainTable :: _ => processTableRows projectName currentYear (processAzureTable mainTable))

/-- The sparse cells of the end-to-end scenario's document: headers
`["Nombre", "Marca", "Fecha Compra"]` and the single data row
`["Taladro Bosch", "Bosch", "05/14/2023"]`. -/
def demoCells : List Cell :=
  [⟨0, 0, "Nombre"⟩, ⟨0, 1, "Marca"⟩, ⟨0, 2, "Fecha Compra"⟩,
   ⟨1, 0, "Taladro Bosch"⟩, ⟨1, 1, "Bosch"⟩, ⟨1, 2, "05/14/2023"⟩]

/-- Modelled from the spec's words for the confidence claim: the fixed weights
itemName +50, brand +15, model +15, purchaseDate +10, specifications +10. -/
def confidenceWeights : List (TargetField × Nat) :=
  [(.itemName, 50), (.brand, 15), (.model, 15), (.purchaseDate, 10), (.specifications, 10)]

/-- Modelled from the spec's words for the confidence claim: the sum of the
fixed weights over the mapped fields whose value in the row is non-empty
after trimming. -/
def specConfidenceSum (row : List String) (m : TargetField → Option Nat) : Nat :=
  ((confidenceWeights.filter fun p => decide (getFieldValue row (m p.1) ≠ "")).map
    fun p => p.2).sum

/-! ## Claim theorems -/

/-- C1: evaluation of the Field Mapper at the failing input.  Both headers
`"Nombre"` and `"Name"` match itemName patterns; the claim (first match wins,
including when the first matching column is column 0) requires itemName to be
assigned to column 0, but the source's guard `if (!mappings[field])` treats
the assigned column number 0 as falsy, so the scan of column 1 overwrites the
assignment and the mapper returns column 1. -/
theorem detectFieldMappings_column0_overridden :
    detectFieldMappings ["Nombre", "Name"] TargetField.itemName = some 1 := by
  decide

/-- C2 counterexample: on the empty cell collection the Table Normalizer does
not fail; it returns a table value, namely the empty table.  (In the source,
`Math.max(...[])` is `-Infinity`, so both loops run zero times.) -/
theorem processAzureTable_empty_returns_table :
    processAzureTable [] = ⟨[], []⟩ := by
  decide

/-- C3: end-to-end scenario.  For the document whose first table has headers
`["Nombre", "Marca", "Fecha Compra"]` and the single data row
`["Taladro Bosch", "Bosch", "05/14/2023"]`, the mapper resolves
itemName→0, brand→1, purchaseDate→2, and the pipeline produces exactly one
item with category `"Power Tools"`, purchaseDate `"2023-05-14"`,
confidence 75 and description `"Marca: Bosch"`, for every project name and
every current year. -/
theorem endToEnd_spanish_table (pn : String) (cy : Nat) :
    detectFieldMappings ["Nombre", "Marca", "Fecha Compra"] TargetField.itemName = some 0
    ∧ detectFieldMappings ["Nombre", "Marca", "Fecha Compra"] TargetField.brand = some 1
    ∧ detectFieldMappings ["Nombre", "Marca", "Fecha Compra"] TargetField.purchaseDate = some 2
    ∧ (extractInventory pn cy [demoCells]).totalItems = 1
    ∧ (extractInventory pn cy [demoCells]).extractedItems.map
        (fun i => (i.category, i.purchaseDate, i.confidence, i.description))
      = [("Power Tools", some "2023-05-14", 75, "Marca: Bosch")] :=
  ⟨rfl, rfl, rfl, rfl, rfl⟩

/-- C7: the Category Classifier returns `"Power Tools"` for
`"Taladro Percutor"`, `"Safety Equipment"` for `"Casco de Seguridad"`, the
default `"General Equipment"` for `"Widget XYZ"`, and the default for a
missing or empty name, never erring (it is a total function). -/
theorem categorizeItem_examples :
    categorizeItem (some "Taladro Percutor") = "Power Tools"
    ∧ categorizeItem (some "Casco de Seguridad") = "Safety Equipment"
    ∧ categorizeItem (some "Widget XYZ") = "General Equipment"
    ∧ categorizeItem none = "General Equipment"
    ∧ categorizeItem (some "") = "General Equipment" :=
  ⟨rfl, rfl, rfl, rfl, rfl⟩

/-- Helper: the value of the Table Normalizer on a non-empty cell list,
with the `isEmpty` branch discharged. -/
theorem processAzureTable_ne_nil (cells : List Cell) (h : cells ≠ []) :
    processAzureTable cells =
      ⟨(List.range (maxColOf cells + 1)).map fun col => cellLookup cells 0 col,
       (List.range' 1 (maxRowOf cells)).map fun r =>
         (List.range (maxColOf cells + 1)).map fun col => cellLookup cells r col⟩ := by
  have h0 : cells.isEmpty = false := by
    cases cells with
    | nil => exact absurd rfl h
    | cons a l => rfl
  simp [processAzureTable, h0]

/-- Helper: a coordinate carried by no cell reads as `""`. -/
theorem cellLookup_not_found (cells : List Cell) (r c : Nat)
    (h : ∀ cell ∈ cells, ¬(cell.rowIndex = r ∧ cell.columnIndex = c)) :
    cellLookup cells r c = "" := by
  unfold cellLookup
  have hf : cells.reverse.find?
      (fun cell => cell.rowIndex == r && cell.columnIndex == c) = none := by
    rw [List.find?_eq_none]
    intro x hx
    have hx' : x ∈ cells := List.mem_reverse.mp hx
    have hnx := h x hx'
    simp only [Bool.and_eq_true, beq_iff_eq]
    exact fun hc => hnx hc
  rw [hf]

/-- C2 (amended): on the empty cell collection the Table Normalizer does not
fail; it returns the empty table (no headers, no rows), which the caller's
headers/rows guards treat as a table with zero rows.  On every non-empty
collection it returns normally, with one header per column `0..maxCol` and
one data row per row `1..maxRow`. -/
theorem processAzureTable_empty_graceful (cells : List Cell) :
    (cells = [] → processAzureTable cells = ⟨[], []⟩)
    ∧ (cells ≠ [] →
        (processAzureTable cells).headers.length = maxColOf cells + 1
        ∧ (processAzureTable cells).rows.length = maxRowOf cells) := by
  constructor
  · intro h
    subst h
    rfl
  · intro h
    rw [processAzureTable_ne_nil cells h]
    simp

/-- C2 witness: the amended theorem applied to the empty collection and to a
concrete one-cell collection. -/
theorem processAzureTable_empty_graceful_witness :
    processAzureTable [] = (⟨[], []⟩ : RawTable)
    ∧ (processAzureTable [⟨0, 0, "x"⟩]).headers.length = maxColOf [⟨0, 0, "x"⟩] + 1 :=
  ⟨(processAzureTable_empty_graceful []).1 rfl,
   ((processAzureTable_empty_graceful [⟨0, 0, "x"⟩]).2 (by decide)).1⟩

/-- C6: for every non-empty cell collection, every row of the normalized table
has exactly the length of the headers array (rectangularity); there are
`maxRow` data rows and `maxCol + 1` headers; row 0 of the input becomes the
headers and rows `1..maxRow` the data rows; and a coordinate carried by no
cell is filled with the empty string. -/
theorem processAzureTable_rectangular (cells : List Cell) (hne : cells ≠ []) :
    (processAzureTable cells).headers.length = maxColOf cells + 1
    ∧ (processAzureTable cells).rows.length = maxRowOf cells
    ∧ (∀ i, i < (processAzureTable cells).rows.length →
        ((processAzureTable cells).rows.getD i []).length
          = (processAzureTable cells).headers.length)
    ∧ (∀ c, c < maxColOf cells + 1 →
        (processAzureTable cells).headers.getD c "" = cellLookup cells 0 c)
    ∧ (∀ r c, r < maxRowOf cells → c < maxColOf cells + 1 →
        ((processAzureTable cells).rows.getD r []).getD c "" = cellLookup cells (r + 1) c)
    ∧ (∀ r c, r < maxRowOf cells → c < maxColOf cells + 1 →
        (∀ cell ∈ cells, ¬(cell.rowIndex = r + 1 ∧ cell.columnIndex = c)) →
        ((processAzureTable cells).rows.getD r []).getD c "" = "") := by
  rw [processAzureTable_ne_nil cells hne]
  refine ⟨by simp, by simp, ?_, ?_, ?_, ?_⟩
  · intro i hi
    simp only [List.length_map, List.length_range'] at hi
    rw [List.getD_eq_getElem _ _ (by simpa using hi)]
    simp
  · intro c hc
    rw [List.getD_eq_getElem _ _ (by simpa using hc)]
    simp
  · intro r c hr hc
    dsimp only
    have hrow : (List.map (fun rr => List.map (fun col => cellLookup cells rr col)
          (List.range (maxColOf cells + 1))) (List.range' 1 (maxRowOf cells))).getD r []
        = List.map (fun col => cellLookup cells (1 + r) col)
            (List.range (maxColOf cells + 1)) := by
      rw [List.getD_eq_getElem _ _ (by simpa using hr)]
      simp [List.getElem_range']
    rw [hrow, List.getD_eq_getElem _ _ (by simpa using hc)]
    simp [Nat.add_comm 1 r]
  · intro r c hr hc hnone
    dsimp only
    have hrow : (List.map (fun rr => List.map (fun col => cellLookup cells rr col)
          (List.range (maxColOf cells + 1))) (List.range' 1 (maxRowOf cells))).getD r []
        = List.map (fun col => cellLookup cells (1 + r) col)
            (List.range (maxColOf cells + 1)) := by
      rw [List.getD_eq_getElem _ _ (by simpa using hr)]
      simp [List.getElem_range']
    rw [hrow, List.getD_eq_getElem _ _ (by simpa using hc)]
    simp only [List.getElem_map, List.getElem_range]
    rw [Nat.add_comm 1 r]
    exact cellLookup_not_found cells (r + 1) c hnone

/-- C6 witness: rectangularity of the concrete two-cell sparse table
`[(0,0,"a"), (1,1,"b")]`, by the theorem. -/
theorem processAzureTable_rectangular_witness :
    ((processAzureTable [⟨0, 0, "a"⟩, ⟨1, 1, "b"⟩]).rows.getD 0 []).length
      = (processAzureTable [⟨0, 0, "a"⟩, ⟨1, 1, "b"⟩]).headers.length :=
  (processAzureTable_rectangular [⟨0, 0, "a"⟩, ⟨1, 1, "b"⟩] (by decide)).2.2.1 0 (by decide)

/-- C4: the Date Normalizer I/O table, for any current year from 2018 on
(today's year qualifies; `"2023"` is accepted as a bare year exactly when
`2023 ≤ currentYear + 5`): `"2023-05-14"` is returned unchanged,
`"05/14/2023"` becomes `"2023-05-14"`, `"2023"` becomes `"2023-01-01"`,
`"1850"` gives `null` (outside `(1900, currentYear + 5]`), and the empty
string and `null` give `null`; moreover on every input the function returns a
string or `null` — it is total and has no exception path. -/
theorem formatPurchaseDate_io_table (cy : Nat) (hcy : 2018 ≤ cy) :
    formatPurchaseDate cy (some "2023-05-14") = some "2023-05-14"
    ∧ formatPurchaseDate cy (some "05/14/2023") = some "2023-05-14"
    ∧ formatPurchaseDate cy (some "2023") = some "2023-01-01"
    ∧ formatPurchaseDate cy (some "1850") = none
    ∧ formatPurchaseDate cy (some "") = none
    ∧ formatPurchaseDate cy none = none
    ∧ ∀ s : Option String,
        formatPurchaseDate cy s = none ∨ ∃ t, formatPurchaseDate cy s = some t := by
  refine ⟨rfl, rfl, ?_, rfl, rfl, rfl, ?_⟩
  · have e : formatPurchaseDate cy (some "2023")
        = if (2023 : Nat) > 1900 ∧ (2023 : Nat) ≤ cy + 5 then some "2023-01-01"
          else none := rfl
    rw [e, if_pos ⟨by norm_num, by omega⟩]
  · intro s
    cases formatPurchaseDate cy s with
    | none => exact Or.inl rfl
    | some t => exact Or.inr ⟨t, rfl⟩

/-- C4 witness: the table at the concrete current year 2026. -/
theorem formatPurchaseDate_io_table_witness :
    formatPurchaseDate 2026 (some "2023") = some "2023-01-01" :=
  (formatPurchaseDate_io_table 2026 (by norm_num)).2.2.1

/-- C5: for every row and mapping, the confidence score equals the sum of the
fixed weights (itemName +50, brand +15, model +15, purchaseDate +10,
specifications +10) over the mapped fields whose value in the row is
non-empty after trimming, clamped at 100; in particular it is a natural
number bounded by 100, hence an integer in `[0, 100]`. -/
theorem calculateItemConfidence_weighted (row : List String) (m : TargetField → Option Nat) :
    calculateItemConfidence row m = min (specConfidenceSum row m) 100
    ∧ calculateItemConfidence row m ≤ 100 := by
  have key : calculateItemConfidence row m = min (specConfidenceSum row m) 100 := by
    unfold calculateItemConfidence specConfidenceSum confidenceWeights
    by_cases h1 : getFieldValue row (m .itemName) = "" <;>
      by_cases h2 : getFieldValue row (m .brand) = "" <;>
        by_cases h3 : getFieldValue row (m .model) = "" <;>
          by_cases h4 : getFieldValue row (m .purchaseDate) = "" <;>
            by_cases h5 : getFieldValue row (m .specifications) = "" <;>
              simp [h1, h2, h3, h4, h5]
  exact ⟨key, key ▸ Nat.min_le_right _ _⟩

/-- C8: with zero detected tables, or a first table normalizing to no headers
or no rows, the pipeline returns a successful empty result: zero items,
confidence score 0, and `fieldMappingSuccess = false` (and it returns
normally — the function is total). -/
theorem extractInventory_empty_result (pn : String) (cy : Nat) (tables : List (List Cell))
    (h : tables = [] ∨ ∃ mt rest, tables = mt :: rest ∧
        ((processAzureTable mt).headers = [] ∨ (processAzureTable mt).rows = [])) :
    (extractInventory pn cy tables).totalItems = 0
    ∧ (extractInventory pn cy tables).confidenceScore = 0
    ∧ (extractInventory pn cy tables).fieldMappingSuccess = false := by
  rcases h with rfl | ⟨mt, rest, rfl, hor⟩
  · exact ⟨rfl, rfl, rfl⟩
  · have hneg : ¬(0 < (processAzureTable mt).headers.length
        ∧ 0 < (processAzureTable mt).rows.length) := by
      rcases hor with h0 | h0 <;> simp [h0]
    have hrows : processTableRows pn cy (processAzureTable mt) = [] := by
      unfold processTableRows
      rw [if_neg hneg]
    have heq : extractInventory pn cy (mt :: rest)
        = summarizeItems (mt :: rest).length
            (processTableRows pn cy (processAzureTable mt)) := rfl
    rw [heq, hrows]
    exact ⟨rfl, rfl, rfl⟩

/-- C8 witness: the theorem applied to zero tables. -/
theorem extractInventory_empty_result_witness :
    (extractInventory "P" 2026 []).totalItems = 0
    ∧ (extractInventory "P" 2026 []).confidenceScore = 0
    ∧ (extractInventory "P" 2026 []).fieldMappingSuccess = false :=
  extractInventory_empty_result "P" 2026 [] (Or.inl rfl)

/-- Helper: enumeration distributes over append, shifting the start index. -/
theorem enumFrom_append_eq {α : Type} (l1 l2 : List α) (n : Nat) :
    (l1 ++ l2).enumFrom n = l1.enumFrom n ++ l2.enumFrom (n + l1.length) := by
  induction l1 generalizing n with
  | nil => simp
  | cons a as ih =>
    simp only [List.cons_append, List.enumFrom_cons, ih, List.length_cons]
    rw [show n + 1 + as.length = n + (as.length + 1) by omega]

/-- Helper: the number of kept elements of an enumerated filter-map whose
guard only looks at the element equals the plain filter count. -/
theorem filterMap_if_length {α β : Type} (g : Nat → α → β) (pred : α → Bool) :
    ∀ (n : Nat) (l : List α),
      ((l.enumFrom n).filterMap fun p =>
          if pred p.2 then some (g p.1 p.2) else none).length
        = (l.filter pred).length := by
  intro n l
  induction l generalizing n with
  | nil => rfl
  | cons a as ih =>
    by_cases hp : pred a <;>
      simp [List.enumFrom_cons, List.filterMap_cons, List.filter_cons, hp, ih]

/-- C9: a row whose cells are all empty after trimming produces no inventory
item and is excluded from the denominator of the average confidence:
appending such a row to the table changes neither the item list nor the
summarized confidence score, and the number of produced items equals the
number of rows with some non-blank cell (the average being the rounded mean
over produced items only, 0 when there are none). -/
theorem blank_row_not_counted (pn : String) (cy : Nat) (t : RawTable)
    (blank : List String) (hb : ∀ c ∈ blank, jsTrim c = "") :
    processTableRows pn cy ⟨t.headers, t.rows ++ [blank]⟩ = processTableRows pn cy t
    ∧ (0 < t.headers.length →
        (processTableRows pn cy t).length
          = (t.rows.filter fun row => row.any fun cell => decide (jsTrim cell ≠ "")).length)
    ∧ ∀ n : Nat,
        (summarizeItems n
            (processTableRows pn cy ⟨t.headers, t.rows ++ [blank]⟩)).confidenceScore
          = (summarizeItems n (processTableRows pn cy t)).confidenceScore := by
  have hblank : (blank.any fun cell => decide (jsTrim cell ≠ "")) = false := by
    rw [List.any_eq_false]
    intro c hc
    simp [hb c hc]
  have h1 : processTableRows pn cy ⟨t.headers, t.rows ++ [blank]⟩
      = processTableRows pn cy t := by
    unfold processTableRows
    dsimp only
    by_cases hh : 0 < t.headers.length
    · by_cases hr : 0 < t.rows.length
      · rw [if_pos ⟨hh, by simp⟩, if_pos ⟨hh, hr⟩]
        show ((t.rows ++ [blank]).enumFrom 0).filterMap _
            = (t.rows.enumFrom 0).filterMap _
        rw [enumFrom_append_eq, List.filterMap_append]
        simp only [List.enumFrom_cons, List.filterMap_cons, hblank]
        simp
      · have h0 : t.rows = [] := List.length_eq_zero.mp (by omega)
        rw [if_pos ⟨hh, by simp⟩, if_neg (fun hcon => hr hcon.2), h0]
        simp only [List.nil_append, List.enum_cons, List.filterMap_cons, hblank]
        simp
    · rw [if_neg (fun hcon => hh hcon.1), if_neg (fun hcon => hh hcon.1)]
  refine ⟨h1, ?_, fun n => by rw [h1]⟩
  intro hh
  unfold processTableRows
  by_cases hr : 0 < t.rows.length
  · rw [if_pos ⟨hh, hr⟩]
    exact filterMap_if_length
      (fun i rw => makeItem pn cy t.headers (detectFieldMappings t.headers) rw i)
      (fun rw => rw.any fun cell => decide (jsTrim cell ≠ "")) 0 t.rows
  · have h0 : t.rows = [] := List.length_eq_zero.mp (by omega)
    rw [if_neg (fun hcon => hr hcon.2)]
    simp [h0]

/-- C9 witness: the theorem applied to a concrete one-column table, appending
the all-blank row `["  "]`. -/
theorem blank_row_not_counted_witness :
    processTableRows "P" 2026 ⟨["Nombre"], [["x"], ["  "]]⟩
      = processTableRows "P" 2026 ⟨["Nombre"], [["x"]]⟩ :=
  (blank_row_not_counted "P" 2026 ⟨["Nombre"], [["x"]]⟩ ["  "] (by decide)).1

/-- C10: a header whose normalization is the empty string passes the
bidirectional substring test for every pattern of every target field (the
empty string is contained in every pattern), so for a headers list consisting
of that single header the Field Mapper assigns all nine target fields to
column 0. -/
theorem empty_normalized_header_matches_all (h : String) (hn : normalizeHeader h = "") :
    (∀ f : TargetField, ∀ p ∈ fieldPatterns f,
      (jsIncludes "" p || jsIncludes p "") = true)
    ∧ ∀ f : TargetField, detectFieldMappings [h] f = some 0 := by
  constructor
  · intro f
    cases f <;> decide
  · intro f
    have e : detectFieldMappings [h] f
        = assignField (fieldPatterns f) [normalizeHeader h] := rfl
    rw [e, hn]
    cases f <;> decide

/-- C10 witness: a punctuation-only header normalizes to `""` and takes all
fields; shown here for the quantity field. -/
theorem empty_normalized_header_matches_all_witness :
    detectFieldMappings ["!!!"] TargetField.quantity = some 0 :=
  (empty_normalized_header_matches_all "!!!" (by decide)).2 TargetField.quantity

end InventoryExtractor
